import Mathlib

/-!
Verification development for the `crunk1/go-jsonschema` package (draft 2019-09).

The Go source (package `jsonschema`, one file) defines:
  * `type Type string` with seven constants and an (unused) list `types`;
  * `type Schema struct { *bool; *schema }` — a JSON-Schema value that is
    either a boolean schema or a schema object;
  * `type schema struct { ... }` — the keyword catalog, decoded with
    `encoding/json` struct tags (five object-keyword fields carry no tag);
  * `func (s *Schema) AsBool() (bool, bool)`;
  * `func (s *Schema) UnmarshalJSON(data []byte) error`;
  * `func FromURI(uri string) (*Schema, error)`.

This file embeds those definitions shallowly.  JSON documents are modelled
as a `JSON` tree (numbers as exact rationals; the float64 rounding of Go is
out of scope for every claim below).  Parsing is modelled at the JSON-token
level: the byte comparisons `bytes.Equal(data, []byte("true"))` /
`... []byte("false")` of `Schema.UnmarshalJSON` correspond to the canonical
literal tokens `JSON.bool true` / `JSON.bool false`.  Go maps are modelled
as association lists in input order; `encoding/json` marshals map keys in
sorted byte order, which the model reproduces by sorting at serialization
time.  The behaviour of `encoding/json` itself (struct-tag handling,
case-insensitive field matching, `omitempty`, the treatment of untagged and
unexported fields, `null` handling) is part of the embedding, translated
from the documented semantics of the Go standard library.
-/

namespace jsonschema

/-- A JSON document.  Object members are kept in textual order. -/
inductive JSON where
  | null
  | bool (b : Bool)
  | num (q : Rat)
  | str (s : String)
  | arr (elems : List JSON)
  | obj (fields : List (String × JSON))

/-- Keys of a JSON object (empty for non-objects). -/
def JSON.objKeys : JSON → List String
  | .obj fs => fs.map Prod.fst
  | _ => []

/-- ASCII lower-casing of one character, as `encoding/json`'s field folding
and `strings.ToLower` behave on ASCII input (all names in this development
are ASCII). -/
def asciiLower (c : Char) : Char :=
  if 'A' ≤ c ∧ c ≤ 'Z' then Char.ofNat (c.toNat + 32) else c

/-- ASCII lower-casing of a string. -/
def lowerStr (s : String) : String :=
  String.mk (s.data.map asciiLower)

/-- Case-insensitive equality of member keys against struct-field names,
modelling `encoding/json`'s fold-based match.  The fifty-five field names of
`schema` are pairwise distinct even case-insensitively, so the decoder's
"exact match preferred" rule collapses to this single test. -/
def eqFold (s t : String) : Bool :=
  s.data.map asciiLower == t.data.map asciiLower

/-- Byte-wise (= code-point-wise) strict order on strings, as Go's `<` on
`string` which `encoding/json` uses to sort map keys. -/
def charListLt : List Char → List Char → Bool
  | [], [] => false
  | [], _ :: _ => true
  | _ :: _, [] => false
  | a :: as, b :: bs =>
      if a.toNat < b.toNat then true
      else if b.toNat < a.toNat then false
      else charListLt as bs

/-- `s` strictly before `t` in Go string order. -/
def strLt (s t : String) : Bool :=
  charListLt s.data t.data

/-- Insert one keyed entry into a key-sorted association list. -/
def insertByKey {α : Type} (p : String × α) : List (String × α) → List (String × α)
  | [] => [p]
  | q :: r => if strLt p.1 q.1 then p :: q :: r else q :: insertByKey p r

/-- Sort an association list by key, as `encoding/json` sorts map keys. -/
def sortByKey {α : Type} : List (String × α) → List (String × α)
  | [] => []
  | p :: r => insertByKey p (sortByKey r)

/-- Go `Type` (the seven type tags, `type Type string`).  Named `GoType`
because `Type` is a Lean keyword. -/
abbrev GoType := String

/-- `ARRAY Type = "array"` -/
def ARRAY : GoType := "array"
/-- `BOOLEAN Type = "boolean"` -/
def BOOLEAN : GoType := "boolean"
/-- `INTEGER Type = "integer"` -/
def INTEGER : GoType := "integer"
/-- `NULL Type = "null"` -/
def NULL : GoType := "null"
/-- `NUMBER Type = "number"` -/
def NUMBER : GoType := "number"
/-- `OBJECT Type = "object"` -/
def OBJECT : GoType := "object"
/-- `STRING Type = "string"` -/
def STRING : GoType := "string"

/-- `types = []Type{ARRAY, BOOLEAN, INTEGER, NULL, NUMBER, OBJECT, STRING}`:
declared in the source and never consulted by any function. -/
def types : List GoType := [ARRAY, BOOLEAN, INTEGER, NULL, NUMBER, OBJECT, STRING]

/-- Go's `schema` struct, parameterized by the recursive occurrence `S`
(instantiated with `Schema` below).  Field names and order follow the Go
declaration exactly (`Type` is rendered `Type_`: `Type` is a Lean keyword).
Pointer fields are `Option`; `interface{}` fields hold a raw `JSON` value
(`none` = nil interface); maps are association lists in input order, whose
schema-valued entries are `Option S` because a JSON `null` member decodes
to a nil `*Schema` element; `[]*Schema` likewise has `Option S` elements;
`*uint64` is `Option Nat` and `*float64` is `Option Rat`.  `baseURI` is the
unexported string field (zero value `""`). -/
structure SchemaObjF (S : Type) where
  Title : Option String := none
  Description : Option String := none
  Default : Option JSON := none
  Deprecated : Option Bool := none
  ReadOnly : Option Bool := none
  WriteOnly : Option Bool := none
  Examples : Option (List JSON) := none
  Schema : Option String := none
  Vocabulary : Option (List (String × Bool)) := none
  ID : Option String := none
  Anchor : Option String := none
  RecursiveAnchor : Option Bool := none
  Ref : Option String := none
  RecursiveRef : Option String := none
  Defs : Option (List (String × Option S)) := none
  Definitions : Option (List (String × Option S)) := none
  Comment : Option String := none
  AllOf : Option (List (Option S)) := none
  AnyOf : Option (List (Option S)) := none
  OneOf : Option (List (Option S)) := none
  Not : Option S := none
  If : Option S := none
  Then : Option S := none
  Else : Option S := none
  DependentSchemas : Option (List (String × Option S)) := none
  Type_ : Option JSON := none
  Enum : Option (List String) := none
  Const : Option JSON := none
  Items : Option JSON := none
  AdditionalItems : Option S := none
  UnevaluatedItems : Option S := none
  Contains : Option S := none
  MaxItems : Option Nat := none
  MinItems : Option Nat := none
  UniqueItems : Option Bool := none
  MaxContains : Option Nat := none
  MinContains : Option Nat := none
  Properties : Option (List (String × Option S)) := none
  PatternProperties : Option (List (String × Option S)) := none
  AdditionalProperties : Option S := none
  UnevaluatedProperties : Option S := none
  PropertyNames : Option S := none
  MaxProperties : Option Nat := none
  MinProperties : Option Nat := none
  Required : Option (List String) := none
  DependentRequired : Option (List (String × Option (List String))) := none
  MultipleOf : Option Rat := none
  Maximum : Option Rat := none
  ExclusiveMaximum : Option Rat := none
  Minimum : Option Rat := none
  ExclusiveMinimum : Option Rat := none
  MaxLength : Option Nat := none
  MinLength : Option Nat := none
  Pattern : Option String := none
  Format : Option String := none
  baseURI : String := ""

/-- Go's `Schema struct { *bool; *schema }`: the two embedded pointers.
`Schema.UnmarshalJSON` sets exactly one of them. -/
inductive Schema where
  | mk (bool : Option Bool) (schema : Option (SchemaObjF Schema)) : Schema

/-- The instantiated schema-object type (Go's `schema`). -/
abbrev SchemaObj := SchemaObjF Schema

/-- The embedded `*bool` of a `Schema`. -/
def Schema.boolPart : Schema → Option Bool
  | .mk b _ => b

/-- The embedded `*schema` of a `Schema`. -/
def Schema.schemaPart : Schema → Option SchemaObj
  | .mk _ s => s

/-- `func (s *Schema) AsBool() (value bool, ok bool)`: returns
`(false, false)` when the bool pointer is nil, else the pointed-to value
with `ok = true`. -/
def Schema.AsBool : Schema → Bool × Bool
  | .mk none _ => (false, false)
  | .mk (some b) _ => (b, true)

/-! ### Per-field decoders of `encoding/json`

One decoder per Go field type of `schema`.  A JSON `null` decoded into a
pointer, slice, map or interface field sets it to its nil zero value;
`null` decoded into a non-pointer `bool`/`string` element is a no-op on the
zero element; any other shape mismatch is an unmarshalling error. -/

/-- Decode into a `*string` field. -/
def decodeStr : JSON → Except String (Option String)
  | .str s => .ok (some s)
  | .null => .ok none
  | _ => .error "json: cannot unmarshal value into Go struct field of type string"

/-- Decode into a `*bool` field. -/
def decodeBool : JSON → Except String (Option Bool)
  | .bool b => .ok (some b)
  | .null => .ok none
  | _ => .error "json: cannot unmarshal value into Go struct field of type bool"

/-- Decode into a `*uint64` field: the number must be a non-negative
integer below `2^64` (Go's decoder rejects fractional, negative and
overflowing numbers for unsigned-integer targets). -/
def decodeUint64 : JSON → Except String (Option Nat)
  | .num q =>
      if q.den = 1 ∧ 0 ≤ q.num ∧ q.num < 18446744073709551616 then
        .ok (some q.num.toNat)
      else
        .error "json: cannot unmarshal number into Go struct field of type uint64"
  | .null => .ok none
  | _ => .error "json: cannot unmarshal value into Go struct field of type uint64"

/-- Decode into a `*float64` field (numbers modelled as exact rationals). -/
def decodeFloat64 : JSON → Except String (Option Rat)
  | .num q => .ok (some q)
  | .null => .ok none
  | _ => .error "json: cannot unmarshal value into Go struct field of type float64"

/-- Decode into an `interface{}` field: every JSON value is stored raw;
`null` yields the nil interface.  This decoder never fails. -/
def decodeIface : JSON → Option JSON
  | .null => none
  | j => some j

/-- Decode into a `[]interface{}` field. -/
def decodeIfaceList : JSON → Except String (Option (List JSON))
  | .arr es => .ok (some es)
  | .null => .ok none
  | _ => .error "json: cannot unmarshal value into Go struct field of type []interface ..."

/-- Decode the elements of a `[]string` value (a `null` element is a no-op
on the zero string `""`). -/
def decodeStrElems : List JSON → Except String (List String)
  | [] => .ok []
  | .str s :: r => do
      let l ← decodeStrElems r
      .ok (s :: l)
  | .null :: r => do
      let l ← decodeStrElems r
      .ok ("" :: l)
  | _ => .error "json: cannot unmarshal value into Go value of type string"

/-- Decode into a `[]string` field. -/
def decodeStrList : JSON → Except String (Option (List String))
  | .arr es => do
      let l ← decodeStrElems es
      .ok (some l)
  | .null => .ok none
  | _ => .error "json: cannot unmarshal value into Go struct field of type []string"

/-- Decode the members of a `map[string]bool` value. -/
def decodeBoolMembers : List (String × JSON) → Except String (List (String × Bool))
  | [] => .ok []
  | (k, .bool b) :: r => do
      let m ← decodeBoolMembers r
      .ok ((k, b) :: m)
  | (k, .null) :: r => do
      let m ← decodeBoolMembers r
      .ok ((k, false) :: m)
  | _ => .error "json: cannot unmarshal value into Go value of type bool"

/-- Decode into a `map[string]bool` field. -/
def decodeBoolMap : JSON → Except String (Option (List (String × Bool)))
  | .obj gs => do
      let m ← decodeBoolMembers gs
      .ok (some m)
  | .null => .ok none
  | _ => .error "json: cannot unmarshal value into Go struct field of type map[string]bool"

/-- Decode the members of a `map[string][]string` value (each member value
is itself decoded as a `[]string`, so a `null` member is a nil slice). -/
def decodeStrListMembers : List (String × JSON) →
    Except String (List (String × Option (List String)))
  | [] => .ok []
  | (k, v) :: r => do
      let x ← decodeStrList v
      let m ← decodeStrListMembers r
      .ok ((k, x) :: m)

/-- Decode into a `map[string][]string` field. -/
def decodeStrListMap : JSON → Except String (Option (List (String × Option (List String))))
  | .obj gs => do
      let m ← decodeStrListMembers gs
      .ok (some m)
  | .null => .ok none
  | _ => .error "json: cannot unmarshal value into Go struct field of type map[string][]string"

/-! ### `Schema.UnmarshalJSON`

`unmarshalSchema` is `func (s *Schema) UnmarshalJSON(data []byte) error`
with the inner `json.Unmarshal(data, s.schema)` struct decoding inlined:
the literals `false`/`true` set the bool pointer; otherwise a fresh zero
`schema` is decoded — `null` is a no-op on it, an object is decoded member
by member (`unmarshalFields`), any other token is an unmarshalling error.
Member keys are matched case-insensitively against the struct's JSON names
(its tag when present, else the Go field name — the five object-keyword
fields have no tag); unrecognized keys are ignored.  Members of type
`*Schema`, `[]*Schema` and `map[string]*Schema` recurse through this same
function, except that a `null` member yields a nil `*Schema` (Go sets a
settable pointer to nil without invoking the unmarshaller). -/

mutual

/-- `Schema.UnmarshalJSON`, at the JSON-token level. -/
def unmarshalSchema : JSON → Except String Schema
  | .bool false => .ok (.mk (some false) none)
  | .bool true => .ok (.mk (some true) none)
  | .null => .ok (.mk none (some {}))
  | .obj fs => do
      let o ← unmarshalFields fs {}
      .ok (.mk none (some o))
  | .num _ => .error "json: cannot unmarshal number into Go value of type jsonschema.schema"
  | .str _ => .error "json: cannot unmarshal string into Go value of type jsonschema.schema"
  | .arr _ => .error "json: cannot unmarshal array into Go value of type jsonschema.schema"

/-- Decode the members of a JSON object into a `schema` struct, one member
at a time in input order (a repeated key overwrites the field). -/
def unmarshalFields : List (String × JSON) → SchemaObj → Except String SchemaObj
  | [], st => .ok st
  | (k, v) :: r, st =>
      if eqFold k "title" then do
        let x ← decodeStr v
        unmarshalFields r { st with Title := x }
      else if eqFold k "description" then do
        let x ← decodeStr v
        unmarshalFields r { st with Description := x }
      else if eqFold k "default" then
        unmarshalFields r { st with Default := decodeIface v }
      else if eqFold k "deprecated" then do
        let x ← decodeBool v
        unmarshalFields r { st with Deprecated := x }
      else if eqFold k "readOnly" then do
        let x ← decodeBool v
        unmarshalFields r { st with ReadOnly := x }
      else if eqFold k "writeOnly" then do
        let x ← decodeBool v
        unmarshalFields r { st with WriteOnly := x }
      else if eqFold k "examples" then do
        let x ← decodeIfaceList v
        unmarshalFields r { st with Examples := x }
      else if eqFold k "$schema" then do
        let x ← decodeStr v
        unmarshalFields r { st with Schema := x }
      else if eqFold k "$vocabulary" then do
        let x ← decodeBoolMap v
        unmarshalFields r { st with Vocabulary := x }
      else if eqFold k "$id" then do
        let x ← decodeStr v
        unmarshalFields r { st with ID := x }
      else if eqFold k "$anchor" then do
        let x ← decodeStr v
        unmarshalFields r { st with Anchor := x }
      else if eqFold k "$recursiveAnchor" then do
        let x ← decodeBool v
        unmarshalFields r { st with RecursiveAnchor := x }
      else if eqFold k "$ref" then do
        let x ← decodeStr v
        unmarshalFields r { st with Ref := x }
      else if eqFold k "$recursiveRef" then do
        let x ← decodeStr v
        unmarshalFields r { st with RecursiveRef := x }
      else if eqFold k "$defs" then do
        let x ← unmarshalSchemaMapField v
        unmarshalFields r { st with Defs := x }
      else if eqFold k "definitions" then do
        let x ← unmarshalSchemaMapField v
        unmarshalFields r { st with Definitions := x }
      else if eqFold k "$comment" then do
        let x ← decodeStr v
        unmarshalFields r { st with Comment := x }
      else if eqFold k "allOf" then do
        let x ← unmarshalSchemaListField v
        unmarshalFields r { st with AllOf := x }
      else if eqFold k "anyOf" then do
        let x ← unmarshalSchemaListField v
        unmarshalFields r { st with AnyOf := x }
      else if eqFold k "oneOf" then do
        let x ← unmarshalSchemaListField v
        unmarshalFields r { st with OneOf := x }
      else if eqFold k "not" then do
        let x ← unmarshalSchemaField v
        unmarshalFields r { st with Not := x }
      else if eqFold k "if" then do
        let x ← unmarshalSchemaField v
        unmarshalFields r { st with If := x }
      else if eqFold k "then" then do
        let x ← unmarshalSchemaField v
        unmarshalFields r { st with Then := x }
      else if eqFold k "else" then do
        let x ← unmarshalSchemaField v
        unmarshalFields r { st with Else := x }
      else if eqFold k "dependentSchemas" then do
        let x ← unmarshalSchemaMapField v
        unmarshalFields r { st with DependentSchemas := x }
      else if eqFold k "type" then
        unmarshalFields r { st with Type_ := decodeIface v }
      else if eqFold k "enum" then do
        let x ← decodeStrList v
        unmarshalFields r { st with Enum := x }
      else if eqFold k "const" then
        unmarshalFields r { st with Const := decodeIface v }
      else if eqFold k "items" then
        unmarshalFields r { st with Items := decodeIface v }
      else if eqFold k "additionalItems" then do
        let x ← unmarshalSchemaField v
        unmarshalFields r { st with AdditionalItems := x }
      else if eqFold k "unevaluatedItems" then do
        let x ← unmarshalSchemaField v
        unmarshalFields r { st with UnevaluatedItems := x }
      else if eqFold k "contains" then do
        let x ← unmarshalSchemaField v
        unmarshalFields r { st with Contains := x }
      else if eqFold k "maxItems" then do
        let x ← decodeUint64 v
        unmarshalFields r { st with MaxItems := x }
      else if eqFold k "minItems" then do
        let x ← decodeUint64 v
        unmarshalFields r { st with MinItems := x }
      else if eqFold k "uniqueItems" then do
        let x ← decodeBool v
        unmarshalFields r { st with UniqueItems := x }
      else if eqFold k "maxContains" then do
        let x ← decodeUint64 v
        unmarshalFields r { st with MaxContains := x }
      else if eqFold k "minContains" then do
        let x ← decodeUint64 v
        unmarshalFields r { st with MinContains := x }
      else if eqFold k "Properties" then do
        let x ← unmarshalSchemaMapField v
        unmarshalFields r { st with Properties := x }
      else if eqFold k "PatternProperties" then do
        let x ← unmarshalSchemaMapField v
        unmarshalFields r { st with PatternProperties := x }
      else if eqFold k "AdditionalProperties" then do
        let x ← unmarshalSchemaField v
        unmarshalFields r { st with AdditionalProperties := x }
      else if eqFold k "UnevaluatedProperties" then do
        let x ← unmarshalSchemaField v
        unmarshalFields r { st with UnevaluatedProperties := x }
      else if eqFold k "PropertyNames" then do
        let x ← unmarshalSchemaField v
        unmarshalFields r { st with PropertyNames := x }
      else if eqFold k "maxProperties" then do
        let x ← decodeUint64 v
        unmarshalFields r { st with MaxProperties := x }
      else if eqFold k "minProperties" then do
        let x ← decodeUint64 v
        unmarshalFields r { st with MinProperties := x }
      else if eqFold k "required" then do
        let x ← decodeStrList v
        unmarshalFields r { st with Required := x }
      else if eqFold k "dependentRequired" then do
        let x ← decodeStrListMap v
        unmarshalFields r { st with DependentRequired := x }
      else if eqFold k "multipleOf" then do
        let x ← decodeFloat64 v
        unmarshalFields r { st with MultipleOf := x }
      else if eqFold k "maximum" then do
        let x ← decodeFloat64 v
        unmarshalFields r { st with Maximum := x }
      else if eqFold k "exclusiveMaximum" then do
        let x ← decodeFloat64 v
        unmarshalFields r { st with ExclusiveMaximum := x }
      else if eqFold k "minimum" then do
        let x ← decodeFloat64 v
        unmarshalFields r { st with Minimum := x }
      else if eqFold k "exclusiveMinimum" then do
        let x ← decodeFloat64 v
        unmarshalFields r { st with ExclusiveMinimum := x }
      else if eqFold k "maxLength" then do
        let x ← decodeUint64 v
        unmarshalFields r { st with MaxLength := x }
      else if eqFold k "minLength" then do
        let x ← decodeUint64 v
        unmarshalFields r { st with MinLength := x }
      else if eqFold k "pattern" then do
        let x ← decodeStr v
        unmarshalFields r { st with Pattern := x }
      else if eqFold k "format" then do
        let x ← decodeStr v
        unmarshalFields r { st with Format := x }
      else
        unmarshalFields r st

/-- Decode a member into a `*Schema` struct field.  A JSON `null` sets the
settable pointer to nil without invoking the unmarshaller; any other value
goes through `Schema.UnmarshalJSON` — its cases are restated here (the
recursion must descend into the member's own subterms). -/
def unmarshalSchemaField : JSON → Except String (Option Schema)
  | .null => .ok none
  | .bool false => .ok (some (.mk (some false) none))
  | .bool true => .ok (some (.mk (some true) none))
  | .obj fs => do
      let o ← unmarshalFields fs {}
      .ok (some (.mk none (some o)))
  | .num _ => .error "json: cannot unmarshal number into Go value of type jsonschema.schema"
  | .str _ => .error "json: cannot unmarshal string into Go value of type jsonschema.schema"
  | .arr _ => .error "json: cannot unmarshal array into Go value of type jsonschema.schema"

/-- Decode a member into a `map[string]*Schema` struct field (`null` is a
nil map; a non-object is an error). -/
def unmarshalSchemaMapField : JSON → Except String (Option (List (String × Option Schema)))
  | .null => .ok none
  | .obj gs => do
      let m ← unmarshalSchemaMembers gs
      .ok (some m)
  | _ => .error "json: cannot unmarshal value into Go struct field of type map[string]*Schema"

/-- Decode a member into a `[]*Schema` struct field (`null` is a nil
slice; a non-array is an error). -/
def unmarshalSchemaListField : JSON → Except String (Option (List (Option Schema)))
  | .null => .ok none
  | .arr es => do
      let l ← unmarshalSchemaElems es
      .ok (some l)
  | _ => .error "json: cannot unmarshal value into Go struct field of type []*Schema"

/-- Decode the members of a `map[string]*Schema` value (a `null` member is
a nil `*Schema` element). -/
def unmarshalSchemaMembers : List (String × JSON) →
    Except String (List (String × Option Schema))
  | [] => .ok []
  | (k, .null) :: r => do
      let m ← unmarshalSchemaMembers r
      .ok ((k, none) :: m)
  | (k, v) :: r => do
      let s ← unmarshalSchema v
      let m ← unmarshalSchemaMembers r
      .ok ((k, some s) :: m)

/-- Decode the elements of a `[]*Schema` value (a `null` element is a nil
`*Schema`). -/
def unmarshalSchemaElems : List JSON → Except String (List (Option Schema))
  | [] => .ok []
  | .null :: r => do
      let l ← unmarshalSchemaElems r
      .ok (none :: l)
  | v :: r => do
      let s ← unmarshalSchema v
      let l ← unmarshalSchemaElems r
      .ok (some s :: l)

end

/-! ### Serialization: `json.Marshal` on `Schema`

The package defines no `MarshalJSON`, so serialization is Go's default
struct marshalling.  On `Schema`: the embedded `*bool` is an unexported
non-struct field and is ignored; the embedded `*schema` is an unexported
struct pointer, so its exported fields are promoted — and skipped entirely
when the pointer is nil.  Hence every `Schema` marshals to a JSON object.
On `schema`: fields are emitted in declaration order under their tag name
with `omitempty` (nil pointer / nil interface / length-zero slice or map
are dropped), except the five untagged object-keyword fields, which are
always emitted under their Go field names (`Properties`, ...), a nil map
or nil `*Schema` rendering as `null`.  The unexported `baseURI` is never
marshalled.  Map keys are emitted in sorted order. -/

/-- Emit a `*string` field under `omitempty`. -/
def emitStr (name : String) : Option String → List (String × JSON)
  | none => []
  | some s => [(name, .str s)]

/-- Emit a `*bool` field under `omitempty`. -/
def emitBool (name : String) : Option Bool → List (String × JSON)
  | none => []
  | some b => [(name, .bool b)]

/-- Emit a `*uint64` field under `omitempty`. -/
def emitNat (name : String) : Option Nat → List (String × JSON)
  | none => []
  | some n => [(name, .num (n : Rat))]

/-- Emit a `*float64` field under `omitempty`. -/
def emitFloat (name : String) : Option Rat → List (String × JSON)
  | none => []
  | some q => [(name, .num q)]

/-- Emit an `interface{}` field under `omitempty` (dropped only when nil). -/
def emitIface (name : String) : Option JSON → List (String × JSON)
  | none => []
  | some j => [(name, j)]

/-- Emit a `[]interface{}` field under `omitempty` (nil or empty dropped). -/
def emitIfaceList (name : String) : Option (List JSON) → List (String × JSON)
  | none => []
  | some [] => []
  | some l => [(name, .arr l)]

/-- Emit a `[]string` field under `omitempty`. -/
def emitStrList (name : String) : Option (List String) → List (String × JSON)
  | none => []
  | some [] => []
  | some l => [(name, .arr (l.map JSON.str))]

/-- Emit a `map[string]bool` field under `omitempty`, keys sorted. -/
def emitBoolMap (name : String) : Option (List (String × Bool)) → List (String × JSON)
  | none => []
  | some [] => []
  | some m => [(name, .obj ((sortByKey m).map fun p => (p.1, JSON.bool p.2)))]

/-- Render one `map[string][]string` member value (a nil slice is `null`). -/
def strListValue : Option (List String) → JSON
  | none => .null
  | some l => .arr (l.map JSON.str)

/-- Emit a `map[string][]string` field under `omitempty`, keys sorted. -/
def emitStrListMap (name : String) :
    Option (List (String × Option (List String))) → List (String × JSON)
  | none => []
  | some [] => []
  | some m => [(name, .obj ((sortByKey m).map fun p => (p.1, strListValue p.2)))]

mutual

/-- `json.Marshal` of a `Schema` value: the object of the promoted
`schema` fields, or the empty object when the `schema` pointer is nil (the
embedded `*bool` is unexported and never marshalled). -/
def marshalSchema : Schema → JSON
  | .mk _ none => .obj []
  | .mk _ (some o) => .obj (marshalObj o)

/-- The marshalled members of a `schema` struct, in field-declaration
order. -/
def marshalObj : SchemaObj → List (String × JSON)
  | ⟨title, description, dflt, deprecated, readOnly, writeOnly, examples,
     schemaF, vocabulary, idF, anchor, recursiveAnchor, ref, recursiveRef,
     defs, definitions, comment, allOf, anyOf, oneOf, notS, ifS, thenS,
     elseS, dependentSchemas, typeF, enum, constF, items, additionalItems,
     unevaluatedItems, containsS, maxItems, minItems, uniqueItems,
     maxContains, minContains, properties, patternProperties,
     additionalProperties, unevaluatedProperties, propertyNames,
     maxProperties, minProperties, required, dependentRequired, multipleOf,
     maximum, exclusiveMaximum, minimum, exclusiveMinimum, maxLength,
     minLength, patternF, format, _baseURI⟩ =>
      emitStr "title" title ++
      emitStr "description" description ++
      emitIface "default" dflt ++
      emitBool "deprecated" deprecated ++
      emitBool "readOnly" readOnly ++
      emitBool "writeOnly" writeOnly ++
      emitIfaceList "examples" examples ++
      emitStr "$schema" schemaF ++
      emitBoolMap "$vocabulary" vocabulary ++
      emitStr "$id" idF ++
      emitStr "$anchor" anchor ++
      emitBool "$recursiveAnchor" recursiveAnchor ++
      emitStr "$ref" ref ++
      emitStr "$recursiveRef" recursiveRef ++
      emitSchemaMap "$defs" defs ++
      emitSchemaMap "definitions" definitions ++
      emitStr "$comment" comment ++
      emitSchemaList "allOf" allOf ++
      emitSchemaList "anyOf" anyOf ++
      emitSchemaList "oneOf" oneOf ++
      emitSchema "not" notS ++
      emitSchema "if" ifS ++
      emitSchema "then" thenS ++
      emitSchema "else" elseS ++
      emitSchemaMap "dependentSchemas" dependentSchemas ++
      emitIface "type" typeF ++
      emitStrList "enum" enum ++
      emitIface "const" constF ++
      emitIface "items" items ++
      emitSchema "additionalItems" additionalItems ++
      emitSchema "unevaluatedItems" unevaluatedItems ++
      emitSchema "contains" containsS ++
      emitNat "maxItems" maxItems ++
      emitNat "minItems" minItems ++
      emitBool "uniqueItems" uniqueItems ++
      emitNat "maxContains" maxContains ++
      emitNat "minContains" minContains ++
      [("Properties", untaggedSchemaMap properties)] ++
      [("PatternProperties", untaggedSchemaMap patternProperties)] ++
      [("AdditionalProperties", untaggedSchema additionalProperties)] ++
      [("UnevaluatedProperties", untaggedSchema unevaluatedProperties)] ++
      [("PropertyNames", untaggedSchema propertyNames)] ++
      emitNat "maxProperties" maxProperties ++
      emitNat "minProperties" minProperties ++
      emitStrList "required" required ++
      emitStrListMap "dependentRequired" dependentRequired ++
      emitFloat "multipleOf" multipleOf ++
      emitFloat "maximum" maximum ++
      emitFloat "exclusiveMaximum" exclusiveMaximum ++
      emitFloat "minimum" minimum ++
      emitFloat "exclusiveMinimum" exclusiveMinimum ++
      emitNat "maxLength" maxLength ++
      emitNat "minLength" minLength ++
      emitStr "pattern" patternF ++
      emitStr "format" format

/-- Emit a tagged `*Schema` field under `omitempty`. -/
def emitSchema (name : String) : Option Schema → List (String × JSON)
  | none => []
  | some s => [(name, marshalSchema s)]

/-- Emit a tagged `[]*Schema` field under `omitempty` (a nil element
renders as `null`). -/
def emitSchemaList (name : String) : Option (List (Option Schema)) → List (String × JSON)
  | none => []
  | some [] => []
  | some l => [(name, .arr (marshalSchemaElems l))]

/-- Emit a tagged `map[string]*Schema` field under `omitempty`, keys
sorted. -/
def emitSchemaMap (name : String) :
    Option (List (String × Option Schema)) → List (String × JSON)
  | none => []
  | some [] => []
  | some m => [(name, .obj (sortByKey (marshalSchemaMembers m)))]

/-- Render an untagged `map[string]*Schema` field (no `omitempty`: a nil
map is `null`). -/
def untaggedSchemaMap : Option (List (String × Option Schema)) → JSON
  | none => .null
  | some m => .obj (sortByKey (marshalSchemaMembers m))

/-- Render an untagged `*Schema` field (no `omitempty`: nil is `null`). -/
def untaggedSchema : Option Schema → JSON
  | none => .null
  | some s => marshalSchema s

/-- Marshal the elements of a `[]*Schema`. -/
def marshalSchemaElems : List (Option Schema) → List JSON
  | [] => []
  | none :: r => .null :: marshalSchemaElems r
  | some s :: r => marshalSchema s :: marshalSchemaElems r

/-- Marshal the members of a `map[string]*Schema` (before key sorting). -/
def marshalSchemaMembers : List (String × Option Schema) → List (String × JSON)
  | [] => []
  | (k, none) :: r => (k, .null) :: marshalSchemaMembers r
  | (k, some s) :: r => (k, marshalSchema s) :: marshalSchemaMembers r

end

/-! ### The document loader: `FromURI`

`FromURI` calls `url.Parse`, switches on the scheme, retrieves bytes
through `ioutil.ReadFile` or `http.Get` + `ioutil.ReadAll`, and unmarshals
them.  The model below translates `net/url`'s `Parse`: the control-byte
rejection, `getScheme` (including its "no scheme at all" and "missing
protocol scheme" outcomes), scheme lower-casing, the query split, the
opaque shortcut for `scheme:opaque` forms, the colon-in-first-segment
rejection, authority validation for `//authority/...` forms
(`parseAuthority`: host character and percent-escape rules, bracketed
hosts, port syntax, userinfo character and escape rules), and
percent-escape validation of the path and fragment (the query is kept
raw, as in Go).  Simplifications, none load-bearing for any claim: the
IPv6 zone (`%25`) special case is subsumed under the plain host rules;
the cosmetic `ForceQuery` flag for a trailing lone `?` is not tracked;
the final path escape check covers the whole pre-query remainder, which
agrees with Go's per-component checks because the authority is validated
first under strictly stronger rules.  Retrieval is abstracted into
collaborators: raw bytes are either well-formed JSON text or malformed,
and an HTTP response carries a status code and a body whose read may
itself fail (`ioutil.ReadAll`). -/

/-- ASCII letter, as `getScheme`'s first character class. -/
def isAlphaChar (c : Char) : Bool :=
  ('a'.toNat ≤ c.toNat && c.toNat ≤ 'z'.toNat) ||
  ('A'.toNat ≤ c.toNat && c.toNat ≤ 'Z'.toNat)

/-- ASCII digit. -/
def isDigitChar (c : Char) : Bool :=
  '0'.toNat ≤ c.toNat && c.toNat ≤ '9'.toNat

/-- ASCII hex digit, Go's `ishex`. -/
def isHexChar (c : Char) : Bool :=
  isDigitChar c ||
  ('a'.toNat ≤ c.toNat && c.toNat ≤ 'f'.toNat) ||
  ('A'.toNat ≤ c.toNat && c.toNat ≤ 'F'.toNat)

/-- A control byte in the sense of `net/url` (below space, or DEL). -/
def isCTL (c : Char) : Bool :=
  c.toNat < 32 || c.toNat == 127

/-- `stringContainsCTLByte`. -/
def containsCTL (s : String) : Bool :=
  s.data.any isCTL

/-- `strconv.Quote` as used by `%q` on the plain strings below (no
characters needing escapes occur in any claim). -/
def goQuote (s : String) : String :=
  "\"" ++ s ++ "\""

/-- The scan loop of `net/url`'s `getScheme`: `acc` holds the scheme
characters consumed so far (reversed), `first` is true at index 0, `orig`
is the whole input.  A letter continues; a digit or `+`/`-`/`.` continues
except at index 0 (then: no scheme); `:` ends the scheme (an error at
index 0); any other character means no scheme. -/
def getSchemeAux : List Char → List Char → Bool → String → Except String (String × String)
  | [], _, _, orig => .ok ("", orig)
  | c :: rest, acc, first, orig =>
      if isAlphaChar c then
        getSchemeAux rest (c :: acc) false orig
      else if isDigitChar c || c == '+' || c == '-' || c == '.' then
        if first then .ok ("", orig) else getSchemeAux rest (c :: acc) false orig
      else if c == ':' then
        if first then .error "missing protocol scheme"
        else .ok (String.mk acc.reverse, String.mk rest)
      else
        .ok ("", orig)

/-- `getScheme(rawURL) (scheme, path, err)`. -/
def getScheme (rawURL : String) : Except String (String × String) :=
  getSchemeAux rawURL.data [] true rawURL

/-- Split a string at the first occurrence of `c` (Go `strings.Cut`):
accumulator-passing scan. -/
def cutAtAux (c : Char) : List Char → List Char → String × String
  | [], acc => (String.mk acc.reverse, "")
  | x :: r, acc => if x == c then (String.mk acc.reverse, String.mk r) else cutAtAux c r (x :: acc)

/-- Split a string at the first occurrence of `c`, dropping the separator
(the second component is empty when `c` does not occur). -/
def cutAt (c : Char) (s : String) : String × String :=
  cutAtAux c s.data []

/-- Percent-escape validation of `net/url`'s `unescape`: every `%` must be
followed by two hex digits; the error carries the offending window of at
most three characters. -/
def checkEscapes : List Char → Except String Unit
  | [] => .ok ()
  | '%' :: rest =>
      match rest with
      | a :: b :: r =>
          if isHexChar a && isHexChar b then checkEscapes r
          else .error ("invalid URL escape " ++ goQuote (String.mk ['%', a, b]))
      | short => .error ("invalid URL escape " ++ goQuote (String.mk ('%' :: short)))
  | _ :: rest => checkEscapes rest

/-- Whether a string begins with `/` (first byte, as `strings.HasPrefix`
on `"/"`). -/
def headIsSlash (s : String) : Bool :=
  match s.data with
  | '/' :: _ => true
  | _ => false

/-- Whether a string begins with `//`. -/
def headIsSlashSlash (s : String) : Bool :=
  match s.data with
  | '/' :: '/' :: _ => true
  | _ => false

/-- Whether a string begins with `///` (a scheme-less `///...` is a
rooted path, not an authority, in `net/url`). -/
def headIsSlash3 (s : String) : Bool :=
  match s.data with
  | '/' :: '/' :: '/' :: _ => true
  | _ => false

/-- A byte Go's `shouldEscape` leaves unescaped in the host component:
alphanumerics, the sub-delims plus `:[]<>"`, and the unreserved marks.
Bytes at or above `0x80` are not checked (the guard `s[i] < 0x80`). -/
def isHostAllowedChar (c : Char) : Bool :=
  isAlphaChar c || isDigitChar c ||
  c == '!' || c == '$' || c == '&' || c == '\'' || c == '(' || c == ')' ||
  c == '*' || c == '+' || c == ',' || c == ';' || c == '=' || c == ':' ||
  c == '[' || c == ']' || c == '<' || c == '>' || c == '"' ||
  c == '-' || c == '_' || c == '.' || c == '~'

/-- A rune Go's `validUserinfo` accepts (non-ASCII runes are rejected
there, unlike in the host). -/
def isUserinfoChar (c : Char) : Bool :=
  isAlphaChar c || isDigitChar c ||
  c == '-' || c == '.' || c == '_' || c == ':' || c == '~' || c == '!' ||
  c == '$' || c == '&' || c == '\'' || c == '(' || c == ')' || c == '*' ||
  c == '+' || c == ',' || c == ';' || c == '=' || c == '%' || c == '@'

/-- `validOptionalPort`: empty, or `:` followed by digits only. -/
def validOptionalPort (p : List Char) : Bool :=
  match p with
  | [] => true
  | ':' :: digits => digits.all isDigitChar
  | _ => false

/-- Split at the LAST occurrence of `c` (Go `strings.LastIndex`): the
parts before and after it, neither containing that occurrence; `none`
when `c` is absent. -/
def splitAtLast (c : Char) (l : List Char) : Option (List Char × List Char) :=
  if l.contains c then
    some (((l.reverse.dropWhile (fun x => x != c)).tail).reverse,
          (l.reverse.takeWhile (fun x => x != c)).reverse)
  else
    none

/-- Numeric value of a hex digit. -/
def hexVal (c : Char) : Nat :=
  if isDigitChar c then c.toNat - '0'.toNat
  else if 'a'.toNat ≤ c.toNat && c.toNat ≤ 'f'.toNat then c.toNat - 'a'.toNat + 10
  else c.toNat - 'A'.toNat + 10

/-- Go's `unescape` in `encodeHost` mode: every `%` needs two hex digits
and — per RFC 3986 — may only encode a non-ASCII byte (first hex digit at
least 8) or `%25`; an unescaped ASCII byte outside the allowed host set
is an invalid host character. -/
def checkHost : List Char → Except String Unit
  | [] => .ok ()
  | '%' :: rest =>
      match rest with
      | a :: b :: r =>
          if isHexChar a && isHexChar b then
            if hexVal a < 8 && !(a == '2' && b == '5') then
              .error ("invalid URL escape " ++ goQuote (String.mk ['%', a, b]))
            else
              checkHost r
          else .error ("invalid URL escape " ++ goQuote (String.mk ['%', a, b]))
      | short => .error ("invalid URL escape " ++ goQuote (String.mk ('%' :: short)))
  | c :: rest =>
      if c.toNat < 128 && !isHostAllowedChar c then
        .error ("net/url: invalid character " ++ goQuote (String.mk [c]) ++ " in host name")
      else
        checkHost rest

/-- `parseHost`: a bracketed host must close its bracket and may carry a
`:port` after it; otherwise an optional `:port` hangs off the last colon;
then the host bytes are validated (`encodeHost` unescaping).  The IPv6
`%25` zone split is subsumed under the plain host rules. -/
def parseHost (host : List Char) : Except String Unit :=
  match host with
  | '[' :: _ =>
      match splitAtLast ']' host with
      | none => .error "missing ']' in host"
      | some (_, colonPort) =>
          if validOptionalPort colonPort then checkHost host
          else .error ("invalid port " ++ goQuote (String.mk colonPort) ++ " after host")
  | _ =>
      match splitAtLast ':' host with
      | none => checkHost host
      | some (_, afterColon) =>
          if validOptionalPort (':' :: afterColon) then checkHost host
          else .error ("invalid port " ++ goQuote (String.mk (':' :: afterColon)) ++ " after host")

/-- `validUserinfo` over the runes of the userinfo part. -/
def validUserinfo (l : List Char) : Bool :=
  l.all isUserinfoChar

/-- `parseAuthority`: the host after the LAST `@` is parsed first; a
userinfo part, when present, must pass `validUserinfo` and have valid
percent-escapes. -/
def parseAuthority (authority : List Char) : Except String Unit :=
  match splitAtLast '@' authority with
  | none => parseHost authority
  | some (userinfo, hostPart) => do
      parseHost hostPart
      if validUserinfo userinfo then checkEscapes userinfo
      else .error "net/url: invalid userinfo"

/-- The parts of `url.URL` that `FromURI` consumes: the (lower-cased)
scheme, and the raw remainder after `scheme:`. -/
structure URL where
  scheme : String
  rest : String

/-- `url.Error` wrapping: `parse "rawURL": msg`. -/
def parseWrap (rawURL msg : String) : String :=
  "parse " ++ goQuote rawURL ++ ": " ++ msg

/-- `url.Parse` as described above.  The fragment is split off and
escape-checked, the scheme extracted and lower-cased, the query split
off raw; `scheme:opaque` forms return with no further validation (Go
stores `Opaque` raw); a scheme-less non-rooted first segment may not
contain a colon; a `//authority` prefix (except a scheme-less `///`,
which is a rooted path) has its authority validated by
`parseAuthority`; finally the remainder is escape-checked. -/
def urlParse (rawURL : String) : Except String URL :=
  if containsCTL rawURL then
    .error (parseWrap rawURL "net/url: invalid control character in URL")
  else
    match getScheme rawURL with
    | .error e => .error (parseWrap rawURL e)
    | .ok (scheme, rest0) =>
        let (beforeFrag, frag) := cutAt '#' rest0
        match checkEscapes frag.data with
        | .error e => .error (parseWrap rawURL e)
        | .ok _ =>
            let rest := (cutAt '?' beforeFrag).1
            if scheme ≠ "" && !headIsSlash rest then
              .ok ⟨lowerStr scheme, rest0⟩
            else if scheme = "" && !headIsSlash rest &&
                (cutAt '/' rest).1.data.contains ':' then
              .error (parseWrap rawURL "first path segment in URL cannot contain colon")
            else
              match (if (decide (scheme ≠ "") || !headIsSlash3 rest) && headIsSlashSlash rest then
                       parseAuthority ((cutAt '/' (String.mk (rest.data.drop 2))).1).data
                     else .ok ()) with
              | .error e => .error (parseWrap rawURL e)
              | .ok _ =>
                  match checkEscapes rest.data with
                  | .error e => .error (parseWrap rawURL e)
                  | .ok _ => .ok ⟨lowerStr scheme, rest0⟩

/-- Percent-decoding (ASCII range; applied only to validated input). -/
def percentDecode : List Char → List Char
  | [] => []
  | '%' :: a :: b :: r =>
      if isHexChar a && isHexChar b then
        Char.ofNat (16 * hexVal a + hexVal b) :: percentDecode r
      else
        '%' :: percentDecode (a :: b :: r)
  | x :: r => x :: percentDecode r

/-- `u.Path`: the decoded path component — the remainder with fragment
and query stripped and, for `//authority/...` forms, the authority
dropped. -/
def URL.path (u : URL) : String :=
  let p := (cutAt '?' (cutAt '#' u.rest).1).1
  match p.data with
  | '/' :: '/' :: r => String.mk (percentDecode (r.dropWhile (fun c => c ≠ '/')))
  | l => String.mk (percentDecode l)

/-- `u.String()`: reassemble the URI passed to `http.Get` (the model keeps
the remainder raw, so this is `scheme:rest`, or `rest` alone for an empty
scheme). -/
def URL.render (u : URL) : String :=
  if u.scheme = "" then u.rest else u.scheme ++ ":" ++ u.rest

/-- Raw retrieved bytes, abstracted: either text that parses as the JSON
document `j`, or malformed JSON (`json.Unmarshal` would fail with a syntax
error). -/
inductive RawDoc where
  | wellFormed (j : JSON)
  | malformed (msg : String)

/-- `json.Unmarshal(bs, s)` on retrieved bytes. -/
def parseRaw : RawDoc → Except String Schema
  | .wellFormed j => unmarshalSchema j
  | .malformed msg => .error msg

/-- An HTTP response as `FromURI` observes it: a status code, and a body
whose read (`ioutil.ReadAll`) may itself fail. -/
structure HTTPResponse where
  statusCode : Nat
  body : Except String RawDoc

/-- The retrieval collaborators of the loader: `ioutil.ReadFile` on a
path, and `http.Get` on a URL string. -/
structure Collab where
  readFile : String → Except String RawDoc
  httpGet : String → Except String HTTPResponse

/-- `func FromURI(uri string) (*Schema, error)`: parse the URI, switch on
its scheme (`file` reads the path; `http`/`https` issue a GET, reject a
non-200 status before reading the body, then read and unmarshal; any
other scheme is unsupported). -/
def fromURI (c : Collab) (uri : String) : Except String Schema :=
  match urlParse uri with
  | .error e => .error e
  | .ok u =>
      match u.scheme with
      | "file" => do
          let doc ← c.readFile u.path
          parseRaw doc
      | "http" | "https" => do
          let resp ← c.httpGet u.render
          if resp.statusCode ≠ 200 then
            .error "HTTP(S) URI returned a non-200 response"
          else do
            let doc ← resp.body
            parseRaw doc
      | _ => .error ("unsupported URI scheme: " ++ goQuote u.scheme)

/-- A collaborator that can retrieve nothing (used where a claim asserts
the collaborators are not consulted). -/
def collabUnused : Collab :=
  ⟨fun _ => .error "file unavailable", fun _ => .error "network unavailable"⟩

/-- A collaborator whose HTTP side always answers with the given status
code and body document. -/
def collabHTTP (code : Nat) (d : RawDoc) : Collab :=
  ⟨fun _ => .error "file unavailable", fun _ => .ok ⟨code, .ok d⟩⟩

/-- The JSON names of the fifty-five decoded fields of `schema` (tag when
present, Go field name for the five untagged ones). -/
def recognizedKeys : List String :=
  ["title", "description", "default", "deprecated", "readOnly", "writeOnly",
   "examples", "$schema", "$vocabulary", "$id", "$anchor", "$recursiveAnchor",
   "$ref", "$recursiveRef", "$defs", "definitions", "$comment", "allOf",
   "anyOf", "oneOf", "not", "if", "then", "else", "dependentSchemas", "type",
   "enum", "const", "items", "additionalItems", "unevaluatedItems",
   "contains", "maxItems", "minItems", "uniqueItems", "maxContains",
   "minContains", "Properties", "PatternProperties", "AdditionalProperties",
   "UnevaluatedProperties", "PropertyNames", "maxProperties", "minProperties",
   "required", "dependentRequired", "multipleOf", "maximum",
   "exclusiveMaximum", "minimum", "exclusiveMinimum", "maxLength",
   "minLength", "pattern", "format"]

/-! ### Helper lemmas -/

/-- Inversion of `Except` bind at a successful result. -/
theorem except_bind_ok {α β : Type} (x : Except String α) (f : α → Except String β) (b : β) :
    (x >>= f) = .ok b ↔ ∃ a, x = .ok a ∧ f a = .ok b := by
  cases x <;> simp [Bind.bind, Except.bind]

set_option maxHeartbeats 4000000 in
/-- Struct decoding never touches the unexported `baseURI` field: the
result of `unmarshalFields` carries the accumulator's `baseURI`. -/
theorem unmarshalFields_baseURI (fs : List (String × JSON)) :
    ∀ st st' : SchemaObj, unmarshalFields fs st = .ok st' → st'.baseURI = st.baseURI := by
  induction fs with
  | nil =>
      intro st st' h
      injection h with h
      rw [← h]
  | cons kv r ih =>
      obtain ⟨k, v⟩ := kv
      intro st st' h
      rw [unmarshalFields.eq_2] at h
      by_cases hc1 : eqFold k "title" = true
      · rw [if_pos hc1] at h
        rw [except_bind_ok] at h
        obtain ⟨a, -, h⟩ := h
        exact Eq.trans (ih _ _ h) rfl
      rw [if_neg hc1] at h
      by_cases hc2 : eqFold k "description" = true
      · rw [if_pos hc2] at h
        rw [except_bind_ok] at h
        obtain ⟨a, -, h⟩ := h
        exact Eq.trans (ih _ _ h) rfl
      rw [if_neg hc2] at h
      by_cases hc3 : eqFold k "default" = true
      · rw [if_pos hc3] at h
        exact Eq.trans (ih _ _ h) rfl
      rw [if_neg hc3] at h
      by_cases hc4 : eqFold k "deprecated" = true
      · rw [if_pos hc4] at h
        rw [except_bind_ok] at h
        obtain ⟨a, -, h⟩ := h
        exact Eq.trans (ih _ _ h) rfl
      rw [if_neg hc4] at h
      by_cases hc5 : eqFold k "readOnly" = true
      · rw [if_pos hc5] at h
        rw [except_bind_ok] at h
        obtain ⟨a, -, h⟩ := h
        exact Eq.trans (ih _ _ h) rfl
      rw [if_neg hc5] at h
      by_cases hc6 : eqFold k "writeOnly" = true
      · rw [if_pos hc6] at h
        rw [except_bind_ok] at h
        obtain ⟨a, -, h⟩ := h
        exact Eq.trans (ih _ _ h) rfl
      rw [if_neg hc6] at h
      by_cases hc7 : eqFold k "examples" = true
      · rw [if_pos hc7] at h
        rw [except_bind_ok] at h
        obtain ⟨a, -, h⟩ := h
        exact Eq.trans (ih _ _ h) rfl
      rw [if_neg hc7] at h
      by_cases hc8 : eqFold k "$schema" = true
      · rw [if_pos hc8] at h
        rw [except_bind_ok] at h
        obtain ⟨a, -, h⟩ := h
        exact Eq.trans (ih _ _ h) rfl
      rw [if_neg hc8] at h
      by_cases hc9 : eqFold k "$vocabulary" = true
      · rw [if_pos hc9] at h
        rw [except_bind_ok] at h
        obtain ⟨a, -, h⟩ := h
        exact Eq.trans (ih _ _ h) rfl
      rw [if_neg hc9] at h
      by_cases hc10 : eqFold k "$id" = true
      · rw [if_pos hc10] at h
        rw [except_bind_ok] at h
        obtain ⟨a, -, h⟩ := h
        exact Eq.trans (ih _ _ h) rfl
      rw [if_neg hc10] at h
      by_cases hc11 : eqFold k "$anchor" = true
      · rw [if_pos hc11] at h
        rw [except_bind_ok] at h
        obtain ⟨a, -, h⟩ := h
        exact Eq.trans (ih _ _ h) rfl
      rw [if_neg hc11] at h
      by_cases hc12 : eqFold k "$recursiveAnchor" = true
      · rw [if_pos hc12] at h
        rw [except_bind_ok] at h
        obtain ⟨a, -, h⟩ := h
        exact Eq.trans (ih _ _ h) rfl
      rw [if_neg hc12] at h
      by_cases hc13 : eqFold k "$ref" = true
      · rw [if_pos hc13] at h
        rw [except_bind_ok] at h
        obtain ⟨a, -, h⟩ := h
        exact Eq.trans (ih _ _ h) rfl
      rw [if_neg hc13] at h
      by_cases hc14 : eqFold k "$recursiveRef" = true
      · rw [if_pos hc14] at h
        rw [except_bind_ok] at h
        obtain ⟨a, -, h⟩ := h
        exact Eq.trans (ih _ _ h) rfl
      rw [if_neg hc14] at h
      by_cases hc15 : eqFold k "$defs" = true
      · rw [if_pos hc15] at h
        rw [except_bind_ok] at h
        obtain ⟨a, -, h⟩ := h
        exact Eq.trans (ih _ _ h) rfl
      rw [if_neg hc15] at h
      by_cases hc16 : eqFold k "definitions" = true
      · rw [if_pos hc16] at h
        rw [except_bind_ok] at h
        obtain ⟨a, -, h⟩ := h
        exact Eq.trans (ih _ _ h) rfl
      rw [if_neg hc16] at h
      by_cases hc17 : eqFold k "$comment" = true
      · rw [if_pos hc17] at h
        rw [except_bind_ok] at h
        obtain ⟨a, -, h⟩ := h
        exact Eq.trans (ih _ _ h) rfl
      rw [if_neg hc17] at h
      by_cases hc18 : eqFold k "allOf" = true
      · rw [if_pos hc18] at h
        rw [except_bind_ok] at h
        obtain ⟨a, -, h⟩ := h
        exact Eq.trans (ih _ _ h) rfl
      rw [if_neg hc18] at h
      by_cases hc19 : eqFold k "anyOf" = true
      · rw [if_pos hc19] at h
        rw [except_bind_ok] at h
        obtain ⟨a, -, h⟩ := h
        exact Eq.trans (ih _ _ h) rfl
      rw [if_neg hc19] at h
      by_cases hc20 : eqFold k "oneOf" = true
      · rw [if_pos hc20] at h
        rw [except_bind_ok] at h
        obtain ⟨a, -, h⟩ := h
        exact Eq.trans (ih _ _ h) rfl
      rw [if_neg hc20] at h
      by_cases hc21 : eqFold k "not" = true
      · rw [if_pos hc21] at h
        rw [except_bind_ok] at h
        obtain ⟨a, -, h⟩ := h
        exact Eq.trans (ih _ _ h) rfl
      rw [if_neg hc21] at h
      by_cases hc22 : eqFold k "if" = true
      · rw [if_pos hc22] at h
        rw [except_bind_ok] at h
        obtain ⟨a, -, h⟩ := h
        exact Eq.trans (ih _ _ h) rfl
      rw [if_neg hc22] at h
      by_cases hc23 : eqFold k "then" = true
      · rw [if_pos hc23] at h
        rw [except_bind_ok] at h
        obtain ⟨a, -, h⟩ := h
        exact Eq.trans (ih _ _ h) rfl
      rw [if_neg hc23] at h
      by_cases hc24 : eqFold k "else" = true
      · rw [if_pos hc24] at h
        rw [except_bind_ok] at h
        obtain ⟨a, -, h⟩ := h
        exact Eq.trans (ih _ _ h) rfl
      rw [if_neg hc24] at h
      by_cases hc25 : eqFold k "dependentSchemas" = true
      · rw [if_pos hc25] at h
        rw [except_bind_ok] at h
        obtain ⟨a, -, h⟩ := h
        exact Eq.trans (ih _ _ h) rfl
      rw [if_neg hc25] at h
      by_cases hc26 : eqFold k "type" = true
      · rw [if_pos hc26] at h
        exact Eq.trans (ih _ _ h) rfl
      rw [if_neg hc26] at h
      by_cases hc27 : eqFold k "enum" = true
      · rw [if_pos hc27] at h
        rw [except_bind_ok] at h
        obtain ⟨a, -, h⟩ := h
        exact Eq.trans (ih _ _ h) rfl
      rw [if_neg hc27] at h
      by_cases hc28 : eqFold k "const" = true
      · rw [if_pos hc28] at h
        exact Eq.trans (ih _ _ h) rfl
      rw [if_neg hc28] at h
      by_cases hc29 : eqFold k "items" = true
      · rw [if_pos hc29] at h
        exact Eq.trans (ih _ _ h) rfl
      rw [if_neg hc29] at h
      by_cases hc30 : eqFold k "additionalItems" = true
      · rw [if_pos hc30] at h
        rw [except_bind_ok] at h
        obtain ⟨a, -, h⟩ := h
        exact Eq.trans (ih _ _ h) rfl
      rw [if_neg hc30] at h
      by_cases hc31 : eqFold k "unevaluatedItems" = true
      · rw [if_pos hc31] at h
        rw [except_bind_ok] at h
        obtain ⟨a, -, h⟩ := h
        exact Eq.trans (ih _ _ h) rfl
      rw [if_neg hc31] at h
      by_cases hc32 : eqFold k "contains" = true
      · rw [if_pos hc32] at h
        rw [except_bind_ok] at h
        obtain ⟨a, -, h⟩ := h
        exact Eq.trans (ih _ _ h) rfl
      rw [if_neg hc32] at h
      by_cases hc33 : eqFold k "maxItems" = true
      · rw [if_pos hc33] at h
        rw [except_bind_ok] at h
        obtain ⟨a, -, h⟩ := h
        exact Eq.trans (ih _ _ h) rfl
      rw [if_neg hc33] at h
      by_cases hc34 : eqFold k "minItems" = true
      · rw [if_pos hc34] at h
        rw [except_bind_ok] at h
        obtain ⟨a, -, h⟩ := h
        exact Eq.trans (ih _ _ h) rfl
      rw [if_neg hc34] at h
      by_cases hc35 : eqFold k "uniqueItems" = true
      · rw [if_pos hc35] at h
        rw [except_bind_ok] at h
        obtain ⟨a, -, h⟩ := h
        exact Eq.trans (ih _ _ h) rfl
      rw [if_neg hc35] at h
      by_cases hc36 : eqFold k "maxContains" = true
      · rw [if_pos hc36] at h
        rw [except_bind_ok] at h
        obtain ⟨a, -, h⟩ := h
        exact Eq.trans (ih _ _ h) rfl
      rw [if_neg hc36] at h
      by_cases hc37 : eqFold k "minContains" = true
      · rw [if_pos hc37] at h
        rw [except_bind_ok] at h
        obtain ⟨a, -, h⟩ := h
        exact Eq.trans (ih _ _ h) rfl
      rw [if_neg hc37] at h
      by_cases hc38 : eqFold k "Properties" = true
      · rw [if_pos hc38] at h
        rw [except_bind_ok] at h
        obtain ⟨a, -, h⟩ := h
        exact Eq.trans (ih _ _ h) rfl
      rw [if_neg hc38] at h
      by_cases hc39 : eqFold k "PatternProperties" = true
      · rw [if_pos hc39] at h
        rw [except_bind_ok] at h
        obtain ⟨a, -, h⟩ := h
        exact Eq.trans (ih _ _ h) rfl
      rw [if_neg hc39] at h
      by_cases hc40 : eqFold k "AdditionalProperties" = true
      · rw [if_pos hc40] at h
        rw [except_bind_ok] at h
        obtain ⟨a, -, h⟩ := h
        exact Eq.trans (ih _ _ h) rfl
      rw [if_neg hc40] at h
      by_cases hc41 : eqFold k "UnevaluatedProperties" = true
      · rw [if_pos hc41] at h
        rw [except_bind_ok] at h
        obtain ⟨a, -, h⟩ := h
        exact Eq.trans (ih _ _ h) rfl
      rw [if_neg hc41] at h
      by_cases hc42 : eqFold k "PropertyNames" = true
      · rw [if_pos hc42] at h
        rw [except_bind_ok] at h
        obtain ⟨a, -, h⟩ := h
        exact Eq.trans (ih _ _ h) rfl
      rw [if_neg hc42] at h
      by_cases hc43 : eqFold k "maxProperties" = true
      · rw [if_pos hc43] at h
        rw [except_bind_ok] at h
        obtain ⟨a, -, h⟩ := h
        exact Eq.trans (ih _ _ h) rfl
      rw [if_neg hc43] at h
      by_cases hc44 : eqFold k "minProperties" = true
      · rw [if_pos hc44] at h
        rw [except_bind_ok] at h
        obtain ⟨a, -, h⟩ := h
        exact Eq.trans (ih _ _ h) rfl
      rw [if_neg hc44] at h
      by_cases hc45 : eqFold k "required" = true
      · rw [if_pos hc45] at h
        rw [except_bind_ok] at h
        obtain ⟨a, -, h⟩ := h
        exact Eq.trans (ih _ _ h) rfl
      rw [if_neg hc45] at h
      by_cases hc46 : eqFold k "dependentRequired" = true
      · rw [if_pos hc46] at h
        rw [except_bind_ok] at h
        obtain ⟨a, -, h⟩ := h
        exact Eq.trans (ih _ _ h) rfl
      rw [if_neg hc46] at h
      by_cases hc47 : eqFold k "multipleOf" = true
      · rw [if_pos hc47] at h
        rw [except_bind_ok] at h
        obtain ⟨a, -, h⟩ := h
        exact Eq.trans (ih _ _ h) rfl
      rw [if_neg hc47] at h
      by_cases hc48 : eqFold k "maximum" = true
      · rw [if_pos hc48] at h
        rw [except_bind_ok] at h
        obtain ⟨a, -, h⟩ := h
        exact Eq.trans (ih _ _ h) rfl
      rw [if_neg hc48] at h
      by_cases hc49 : eqFold k "exclusiveMaximum" = true
      · rw [if_pos hc49] at h
        rw [except_bind_ok] at h
        obtain ⟨a, -, h⟩ := h
        exact Eq.trans (ih _ _ h) rfl
      rw [if_neg hc49] at h
      by_cases hc50 : eqFold k "minimum" = true
      · rw [if_pos hc50] at h
        rw [except_bind_ok] at h
        obtain ⟨a, -, h⟩ := h
        exact Eq.trans (ih _ _ h) rfl
      rw [if_neg hc50] at h
      by_cases hc51 : eqFold k "exclusiveMinimum" = true
      · rw [if_pos hc51] at h
        rw [except_bind_ok] at h
        obtain ⟨a, -, h⟩ := h
        exact Eq.trans (ih _ _ h) rfl
      rw [if_neg hc51] at h
      by_cases hc52 : eqFold k "maxLength" = true
      · rw [if_pos hc52] at h
        rw [except_bind_ok] at h
        obtain ⟨a, -, h⟩ := h
        exact Eq.trans (ih _ _ h) rfl
      rw [if_neg hc52] at h
      by_cases hc53 : eqFold k "minLength" = true
      · rw [if_pos hc53] at h
        rw [except_bind_ok] at h
        obtain ⟨a, -, h⟩ := h
        exact Eq.trans (ih _ _ h) rfl
      rw [if_neg hc53] at h
      by_cases hc54 : eqFold k "pattern" = true
      · rw [if_pos hc54] at h
        rw [except_bind_ok] at h
        obtain ⟨a, -, h⟩ := h
        exact Eq.trans (ih _ _ h) rfl
      rw [if_neg hc54] at h
      by_cases hc55 : eqFold k "format" = true
      · rw [if_pos hc55] at h
        rw [except_bind_ok] at h
        obtain ⟨a, -, h⟩ := h
        exact Eq.trans (ih _ _ h) rfl
      rw [if_neg hc55] at h
      exact Eq.trans (ih _ _ h) rfl

/-- A parsed schema object always carries an empty `baseURI`: the decoder
starts from the zero struct and never writes that field. -/
theorem unmarshalSchema_baseURI (j : JSON) (b : Option Bool) (o : SchemaObj)
    (h : unmarshalSchema j = .ok (.mk b (some o))) : o.baseURI = "" := by
  cases j with
  | null =>
      injection h with h
      injection h with hb hs
      injection hs with hs
      rw [← hs]
  | bool bb =>
      cases bb <;> (injection h with h; injection h with hb hs; exact Option.noConfusion hs)
  | num q => exact Except.noConfusion h
  | str s => exact Except.noConfusion h
  | arr es => exact Except.noConfusion h
  | obj fs =>
      simp only [unmarshalSchema] at h
      rw [except_bind_ok] at h
      obtain ⟨o2, h1, h2⟩ := h
      injection h2 with h2
      injection h2 with hb hs
      injection hs with hs
      rw [← hs]
      exact Eq.trans (unmarshalFields_baseURI fs _ _ h1) rfl

/-- Unmarshalling retrieved bytes yields object schemas with an empty
`baseURI`. -/
theorem parseRaw_baseURI (d : RawDoc) (b : Option Bool) (o : SchemaObj)
    (h : parseRaw d = .ok (.mk b (some o))) : o.baseURI = "" := by
  cases d with
  | wellFormed j => exact unmarshalSchema_baseURI j b o h
  | malformed m => exact Except.noConfusion h

/-- Claim C1: the claim asserts round-trip fidelity (serialization emits
exactly the present keywords under canonical names).  The code violates
it: parsing the document with sole member `additionalProperties: false`
succeeds, but marshalling the result emits the five untagged
object-keyword fields under their Go field names — the four absent ones
as `null`, and the nested boolean-false schema as the empty object —
so the emitted key set is not the input's canonical keyword set. -/
theorem c1_serialization_breaks_roundtrip :
    unmarshalSchema (.obj [("additionalProperties", .bool false)]) =
      .ok (.mk none (some { AdditionalProperties := some (.mk (some false) none) })) ∧
    marshalSchema (.mk none (some { AdditionalProperties := some (.mk (some false) none) })) =
      .obj [("Properties", .null), ("PatternProperties", .null),
            ("AdditionalProperties", .obj []), ("UnevaluatedProperties", .null),
            ("PropertyNames", .null)] ∧
    (JSON.obj [("Properties", .null), ("PatternProperties", .null),
               ("AdditionalProperties", .obj []), ("UnevaluatedProperties", .null),
               ("PropertyNames", .null)]).objKeys ≠ ["additionalProperties"] :=
  ⟨rfl, rfl, by decide⟩

/-- Claim C2: parsing the literal `true` (resp. `false`) does yield
`AsBool = (true, true)` (resp. `(false, true)`), as claimed — but
serializing that value does not reproduce the bare boolean literal: with
no `MarshalJSON` defined, the embedded unexported `*bool` is ignored and
the nil `*schema` is skipped, so marshalling yields the empty JSON
object, which is not the boolean literal. -/
theorem c2_boolean_parse_ok_serialize_not_literal :
    unmarshalSchema (.bool true) = .ok (.mk (some true) none) ∧
    (Schema.mk (some true) none).AsBool = (true, true) ∧
    unmarshalSchema (.bool false) = .ok (.mk (some false) none) ∧
    (Schema.mk (some false) none).AsBool = (false, true) ∧
    marshalSchema (.mk (some true) none) = .obj [] ∧
    marshalSchema (.mk (some false) none) = .obj [] ∧
    JSON.obj [] ≠ JSON.bool true ∧ JSON.obj [] ≠ JSON.bool false :=
  ⟨rfl, rfl, rfl, rfl, rfl, rfl,
   fun hh => JSON.noConfusion hh, fun hh => JSON.noConfusion hh⟩

/-- Claim C3: the claim asserts that a `type` outside the seven tags is a
parse error.  The code never validates `type` (the `types` list is
declared but unused; the field is a raw `interface{}`): parsing
`type: "banana"` — and even a `type` array holding arbitrary values —
succeeds, storing the raw JSON value. -/
theorem c3_unknown_type_tag_accepted :
    "banana" ∉ types ∧
    unmarshalSchema (.obj [("type", .str "banana")]) =
      .ok (.mk none (some { Type_ := some (.str "banana") })) ∧
    unmarshalSchema (.obj [("type", .arr [.str "banana", .num 3])]) =
      .ok (.mk none (some { Type_ := some (.arr [.str "banana", .num 3]) })) :=
  ⟨by decide, rfl, rfl⟩

/-- Claim C4 (counterexample): the claim asserts `items: "not-a-schema"`
fails with a keyword-type parse error; in fact parsing succeeds, storing
the raw string in the `interface{}`-typed `Items` field. -/
theorem c4_items_string_accepted :
    unmarshalSchema (.obj [("items", .str "not-a-schema")]) =
      .ok (.mk none (some { Items := some (.str "not-a-schema") })) := rfl

/-- Claim C4 (amended): the `items` member is decoded as a raw
`interface{}` value — any JSON shape is accepted unvalidated, and array
elements are not parsed into schema values. -/
theorem c4_items_stored_raw (j : JSON) :
    unmarshalSchema (.obj [("items", j)]) =
      .ok (.mk none (some { Items := decodeIface j })) := rfl

/-- Claim C4 (witness): a concrete array-shaped `items` member is stored
as raw JSON. -/
theorem c4_items_stored_raw_witness :
    unmarshalSchema (.obj [("items", .arr [.obj [("type", .str "string")], .bool false])]) =
      .ok (.mk none (some { Items := some (.arr [.obj [("type", .str "string")], .bool false]) })) :=
  c4_items_stored_raw (.arr [.obj [("type", .str "string")], .bool false])

/-- Claim C5 (counterexample): a successful HTTPS load of an object
schema leaves `baseURI` at its zero value `""`, not the resolved absolute
input URI — `FromURI` never assigns the field. -/
theorem c5_baseURI_not_set_on_load :
    fromURI (collabHTTP 200 (.wellFormed (.obj []))) "https://example.com/schema.json" =
      .ok (.mk none (some {})) ∧
    ({} : SchemaObj).baseURI = "" ∧
    ("" : String) ≠ "https://example.com/schema.json" :=
  ⟨rfl, rfl, by decide⟩

/-- Claim C5 (amended): for every successful load whose result is an
object schema, the top-level `baseURI` is the empty string — the field is
never assigned by the loader or the parser, and nothing mutates it. -/
theorem c5_baseURI_always_empty (c : Collab) (uri : String) (b : Option Bool) (o : SchemaObj)
    (h : fromURI c uri = .ok (.mk b (some o))) : o.baseURI = "" := by
  rcases hu : urlParse uri with e | u
  · simp only [fromURI, hu] at h
    exact Except.noConfusion h
  · simp only [fromURI, hu] at h
    split at h
    · rw [except_bind_ok] at h
      obtain ⟨d, -, h⟩ := h
      exact parseRaw_baseURI d b o h
    · rw [except_bind_ok] at h
      obtain ⟨resp, -, h⟩ := h
      split at h
      · exact Except.noConfusion h
      · rw [except_bind_ok] at h
        obtain ⟨d, -, h⟩ := h
        exact parseRaw_baseURI d b o h
    · rw [except_bind_ok] at h
      obtain ⟨resp, -, h⟩ := h
      split at h
      · exact Except.noConfusion h
      · rw [except_bind_ok] at h
        obtain ⟨d, -, h⟩ := h
        exact parseRaw_baseURI d b o h
    · exact Except.noConfusion h

/-- Claim C5 (witness): the amended statement at the concrete HTTPS load
of the empty-object document. -/
theorem c5_baseURI_always_empty_witness : ({} : SchemaObj).baseURI = "" :=
  c5_baseURI_always_empty (collabHTTP 200 (.wellFormed (.obj [])))
    "https://example.com/schema.json" none {} rfl

/-- Claim C6 (counterexample): the claim asserts that a top-level `null`
token is a parse error; in fact `json.Unmarshal` of `null` into the
`schema` struct is a no-op success, so parsing yields an empty object
schema (and not a boolean schema). -/
theorem c6_null_document_accepted :
    unmarshalSchema .null = .ok (.mk none (some {})) ∧
    (Schema.mk none (some ({} : SchemaObj))).AsBool = (false, false) :=
  ⟨rfl, rfl⟩

/-- Claim C7: parsing the document with sole member
`additionalProperties: false` yields an object schema whose
`AdditionalProperties` field holds a schema value with
`AsBool = (false, true)` (the member key matches the untagged Go field
case-insensitively). -/
theorem c7_additionalProperties_false_nested_boolean :
    unmarshalSchema (.obj [("additionalProperties", .bool false)]) =
      .ok (.mk none (some { AdditionalProperties := some (.mk (some false) none) })) ∧
    (Schema.mk (some false) none).AsBool = (false, true) :=
  ⟨rfl, rfl⟩

/-- Binding a successful `Except` computation is application. -/
theorem except_ok_bind {α β : Type} (a : α) (f : α → Except String β) :
    ((Except.ok a : Except String α) >>= f) = f a := rfl

/-- Claim C6 (amended): a top-level string, number or array token is an
unmarshalling error; the literal `null` parses into an empty object
schema; and an object member whose key matches none of the fifty-five
recognized field names (even case-insensitively) is skipped without
effect or error. -/
theorem c6_toplevel_token_dispatch :
    (∀ s : String, unmarshalSchema (.str s) =
      .error "json: cannot unmarshal string into Go value of type jsonschema.schema") ∧
    (∀ q : Rat, unmarshalSchema (.num q) =
      .error "json: cannot unmarshal number into Go value of type jsonschema.schema") ∧
    (∀ es : List JSON, unmarshalSchema (.arr es) =
      .error "json: cannot unmarshal array into Go value of type jsonschema.schema") ∧
    unmarshalSchema .null = .ok (.mk none (some {})) ∧
    (∀ k : String, recognizedKeys.all (fun n => !eqFold k n) = true →
      ∀ (v : JSON) (r : List (String × JSON)) (st : SchemaObj),
        unmarshalFields ((k, v) :: r) st = unmarshalFields r st) := by
  refine ⟨fun s => rfl, fun q => rfl, fun es => rfl, rfl, ?_⟩
  intro k hk v r st
  simp only [recognizedKeys, List.all_cons, List.all_nil, Bool.and_eq_true,
    Bool.not_eq_true', and_true] at hk
  rw [unmarshalFields.eq_2]
  simp only [hk, Bool.false_eq_true, if_false]

/-- Claim C6 (witness): the amended statement at a concrete string
document and a concrete unrecognized member key. -/
theorem c6_toplevel_token_dispatch_witness :
    unmarshalSchema (.str "hello") =
      .error "json: cannot unmarshal string into Go value of type jsonschema.schema" ∧
    unmarshalFields [("frobnicate", .bool true)] ({} : SchemaObj) =
      unmarshalFields [] ({} : SchemaObj) :=
  ⟨c6_toplevel_token_dispatch.1 "hello",
   c6_toplevel_token_dispatch.2.2.2.2 "frobnicate" rfl (.bool true) [] {}⟩

/-- Claim C8: if the URI parses and its scheme is none of `file`, `http`,
`https`, then `FromURI` answers the unsupported-scheme error naming that
scheme, for every retrieval collaborator — so neither retrieval nor
parsing is attempted. -/
theorem c8_unsupported_scheme (c : Collab) (uri : String) (u : URL)
    (hp : urlParse uri = .ok u)
    (h1 : u.scheme ≠ "file") (h2 : u.scheme ≠ "http") (h3 : u.scheme ≠ "https") :
    fromURI c uri = .error ("unsupported URI scheme: " ++ goQuote u.scheme) := by
  simp only [fromURI, hp]

/-- Claim C8 (witness): an `ftp` URI with collaborators that can retrieve
nothing. -/
theorem c8_unsupported_scheme_witness :
    fromURI collabUnused "ftp://example.com/schema.json" =
      .error "unsupported URI scheme: \"ftp\"" :=
  c8_unsupported_scheme collabUnused "ftp://example.com/schema.json"
    ⟨"ftp", "//example.com/schema.json"⟩ rfl (by decide) (by decide) (by decide)

/-- Claim C9: for an `http` or `https` URI whose GET completes with a
status other than 200, `FromURI` returns the non-200 retrieval error; the
response body — whatever it is, even an unreadable or malformed one — is
never read or parsed, as the quantification over `resp` shows. -/
theorem c9_non200_returns_error (c : Collab) (uri : String) (u : URL) (resp : HTTPResponse)
    (hp : urlParse uri = .ok u)
    (hs : u.scheme = "http" ∨ u.scheme = "https")
    (hg : c.httpGet u.render = .ok resp)
    (hcode : resp.statusCode ≠ 200) :
    fromURI c uri = .error "HTTP(S) URI returned a non-200 response" := by
  rcases hs with hs | hs <;>
    (simp only [fromURI, hp, hs, hg, except_ok_bind]
     rw [if_pos hcode])

/-- Claim C9 (witness): a 404 response on an HTTPS URI. -/
theorem c9_non200_returns_error_witness :
    fromURI (collabHTTP 404 (.wellFormed (.obj []))) "https://example.com/schema.json" =
      .error "HTTP(S) URI returned a non-200 response" :=
  c9_non200_returns_error (collabHTTP 404 (.wellFormed (.obj [])))
    "https://example.com/schema.json" ⟨"https", "//example.com/schema.json"⟩
    ⟨404, .ok (.wellFormed (.obj []))⟩ rfl (Or.inr rfl) rfl (by decide)

/-- The scan loop of `getScheme` yields no scheme on colon-free input. -/
theorem getSchemeAux_noColon : ∀ (l acc : List Char) (first : Bool) (orig : String),
    ':' ∉ l → getSchemeAux l acc first orig = .ok ("", orig) := by
  intro l
  induction l with
  | nil => intro acc first orig _; rfl
  | cons c2 r ih =>
      intro acc first orig h
      rw [getSchemeAux.eq_2]
      by_cases h1 : isAlphaChar c2 = true
      · rw [if_pos h1]
        exact ih _ _ _ (fun hm => h (List.mem_cons_of_mem _ hm))
      rw [if_neg h1]
      by_cases h2 : (isDigitChar c2 || c2 == '+' || c2 == '-' || c2 == '.') = true
      · rw [if_pos h2]
        by_cases h3 : first = true
        · rw [if_pos h3]
        · rw [if_neg h3]
          exact ih _ _ _ (fun hm => h (List.mem_cons_of_mem _ hm))
      rw [if_neg h2]
      have h3 : ¬((c2 == ':') = true) := by
        intro hb
        cases eq_of_beq hb
        exact h (List.mem_cons_self _ _)
      rw [if_neg h3]

/-- `getScheme` on colon-free input: no scheme, whole input as remainder. -/
theorem getScheme_noColon (uri : String) (h : ':' ∉ uri.data) :
    getScheme uri = .ok ("", uri) :=
  getSchemeAux_noColon uri.data [] true uri h

/-- Characters of the first `cutAtAux` component come from the
accumulator or the input. -/
theorem mem_of_mem_cutAtAux_fst (ch : Char) : ∀ (l acc : List Char) (x : Char),
    x ∈ ((cutAtAux ch l acc).1).data → x ∈ acc ∨ x ∈ l := by
  intro l
  induction l with
  | nil =>
      intro acc x h
      left
      exact List.mem_reverse.mp h
  | cons y r ih =>
      intro acc x h
      rw [cutAtAux.eq_2] at h
      by_cases hy : (y == ch) = true
      · rw [if_pos hy] at h
        left
        exact List.mem_reverse.mp h
      · rw [if_neg hy] at h
        rcases ih (y :: acc) x h with h2 | h2
        · rcases List.mem_cons.mp h2 with h3 | h3
          · right
            exact h3 ▸ List.mem_cons_self _ _
          · left
            exact h3
        · right
          exact List.mem_cons_of_mem _ h2

/-- Characters of the part before the cut come from the input string. -/
theorem mem_of_mem_cutAt_fst {ch : Char} {s : String} {x : Char}
    (h : x ∈ ((cutAt ch s).1).data) : x ∈ s.data := by
  rcases mem_of_mem_cutAtAux_fst ch s.data [] x h with h2 | h2
  · exact absurd h2 (List.not_mem_nil x)
  · exact h2

/-- `contains` is false for an absent character. -/
theorem contains_colon_eq_false : ∀ (l : List Char), ':' ∉ l → (l.contains ':') = false := by
  intro l h
  cases hc : l.contains ':' with
  | false => rfl
  | true => exact absurd (List.mem_of_elem_eq_true hc) h

/-- `url.Parse` on a colon-free, control-free input that does not start
with `//` (no authority) and has valid percent-escapes in path and
fragment: success, with an empty scheme and the whole input as
remainder. -/
theorem urlParse_noColon (uri : String)
    (hctl : containsCTL uri = false)
    (hcolon : ':' ∉ uri.data)
    (hss : headIsSlashSlash ((cutAt '?' (cutAt '#' uri).1).1) = false)
    (hfrag : checkEscapes ((cutAt '#' uri).2).data = .ok ())
    (hpath : checkEscapes ((cutAt '?' (cutAt '#' uri).1).1).data = .ok ()) :
    urlParse uri = .ok ⟨"", uri⟩ := by
  have hseg : (((cutAt '/' (cutAt '?' (cutAt '#' uri).1).1).1).data.contains ':') = false :=
    contains_colon_eq_false _ (fun hm =>
      hcolon (mem_of_mem_cutAt_fst (mem_of_mem_cutAt_fst (mem_of_mem_cutAt_fst hm))))
  have hg : getScheme uri = .ok ("", uri) := getScheme_noColon uri hcolon
  have d1 : (decide (("" : String) ≠ "")) = false := rfl
  have d2 : (decide (("" : String) = "")) = true := rfl
  have d3 : lowerStr "" = "" := rfl
  simp only [urlParse, hctl, Bool.false_eq_true, if_false, hg, hfrag, d1, d2,
    Bool.false_and, Bool.true_and, hseg, hss, Bool.and_false, hpath, d3]

/-- Claim C10 (counterexample): `"%zz"` contains no scheme, yet loading
it fails with the URI-parse (invalid escape) error — not the
unsupported-scheme error for the empty scheme that the claim predicts for
every scheme-less string. -/
theorem c10_no_scheme_invalid_escape :
    ("%zz".data.contains ':') = false ∧
    fromURI collabUnused "%zz" = .error "parse \"%zz\": invalid URL escape \"%zz\"" ∧
    ("parse \"%zz\": invalid URL escape \"%zz\"" : String) ≠ "unsupported URI scheme: \"\"" :=
  ⟨rfl, rfl, by decide⟩

/-- Claim C10 (amended): a missing scheme is not itself a parse failure:
a colon-free URI string that is otherwise parseable (no control bytes,
no `//` authority prefix — authority forms additionally undergo host
validation — and valid percent-escapes in path and fragment) parses with
an empty scheme, and loading any URI that parses with an empty scheme
returns the unsupported-scheme error naming the empty scheme. -/
theorem c10_empty_scheme_unsupported :
    (∀ uri : String, containsCTL uri = false → ':' ∉ uri.data →
      headIsSlashSlash ((cutAt '?' (cutAt '#' uri).1).1) = false →
      checkEscapes ((cutAt '#' uri).2).data = .ok () →
      checkEscapes ((cutAt '?' (cutAt '#' uri).1).1).data = .ok () →
      urlParse uri = .ok ⟨"", uri⟩) ∧
    (∀ (c : Collab) (uri : String) (u : URL), urlParse uri = .ok u → u.scheme = "" →
      fromURI c uri = .error "unsupported URI scheme: \"\"") := by
  refine ⟨urlParse_noColon, ?_⟩
  intro c uri u hp hs
  have h1 : u.scheme ≠ "file" := by rw [hs]; decide
  have h2 : u.scheme ≠ "http" := by rw [hs]; decide
  have h3 : u.scheme ≠ "https" := by rw [hs]; decide
  simp only [fromURI, hp]
  rw [hs]
  rfl

/-- Claim C10 (witness): the amended statement at the bare relative path
`schema.json`. -/
theorem c10_empty_scheme_unsupported_witness :
    urlParse "schema.json" = .ok ⟨"", "schema.json"⟩ ∧
    fromURI collabUnused "schema.json" = .error "unsupported URI scheme: \"\"" :=
  ⟨c10_empty_scheme_unsupported.1 "schema.json" rfl (by decide) rfl rfl rfl,
   c10_empty_scheme_unsupported.2 collabUnused "schema.json" ⟨"", "schema.json"⟩ rfl rfl⟩

end jsonschema
